import Mathlib

/-
Verification of the skills-inventory clustering pipeline.

The development shallowly embeds the Python sources:
  src/lambda/etl_job.py             (proficiency mapping)
  src/lambda/handler.py             (Athena aggregation, scaling, k-search,
                                     cluster statistics, stored run summary)
  src/sagemaker/train_clustering.py (feature building, train_kmeans)
Numeric values are rationals.  Library calls whose numeric output the claims
never inspect (sklearn KMeans fit_predict, the silhouette value itself, the
square root inside StandardScaler) are abstracted as explicit function
parameters; their documented error conditions (KMeans requires
n_samples >= n_clusters, silhouette_score requires
2 <= n_labels <= n_samples - 1, StandardScaler replaces a zero standard
deviation by 1) are embedded concretely.  Pandas groupby sorts its group
keys; string keys are compared by code points, embedded below as a
structural lexicographic order so that results are computable.
-/

attribute [local semireducible] Rat.add Rat.mul Rat.inv Rat.sub

namespace SkillsInventory

/-- Code-point lexicographic order on character lists, the order in which
pandas sorts string group keys. -/
def lexLe : List Char → List Char → Bool
  | [], _ => true
  | _ :: _, [] => false
  | a :: as, b :: bs =>
    if a.toNat < b.toNat then true
    else if b.toNat < a.toNat then false
    else lexLe as bs

/-- Code-point lexicographic order on strings. -/
def strLe (a b : String) : Prop := lexLe a.data b.data = true

instance : DecidableRel strLe :=
  fun a b => inferInstanceAs (Decidable (lexLe a.data b.data = true))

instance : IsTotal String strLe where
  total a b := by
    have key : ∀ x y : List Char, lexLe x y = true ∨ lexLe y x = true := by
      intro x
      induction x with
      | nil => intro y; left; rfl
      | cons a as ih =>
        intro y
        cases y with
        | nil => right; rfl
        | cons b bs =>
          by_cases h1 : a.toNat < b.toNat
          · left; simp [lexLe, h1]
          · by_cases h2 : b.toNat < a.toNat
            · right; simp [lexLe, h2]
            · rcases ih bs with h | h
              · left; simp [lexLe, h1, h2, h]
              · right; simp [lexLe, h1, h2, h]
    exact key a.data b.data

instance : IsTrans String strLe where
  trans a b c hab hbc := by
    have key : ∀ x y z : List Char, lexLe x y = true → lexLe y z = true →
        lexLe x z = true := by
      intro x
      induction x with
      | nil => intro y z _ _; rfl
      | cons a as ih =>
        intro y z hxy hyz
        cases y with
        | nil => simp [lexLe] at hxy
        | cons b bs =>
          cases z with
          | nil => simp [lexLe] at hyz
          | cons c cs =>
            simp only [lexLe] at hxy hyz ⊢
            by_cases h1 : a.toNat < b.toNat
            · by_cases h3 : b.toNat < c.toNat
              · rw [if_pos (show a.toNat < c.toNat by omega)]
              · by_cases h4 : c.toNat < b.toNat
                · rw [if_neg h3, if_pos h4] at hyz; simp at hyz
                · rw [if_pos (show a.toNat < c.toNat by omega)]
            · by_cases h2 : b.toNat < a.toNat
              · rw [if_neg h1, if_pos h2] at hxy; simp at hxy
              · by_cases h3 : b.toNat < c.toNat
                · rw [if_pos (show a.toNat < c.toNat by omega)]
                · by_cases h4 : c.toNat < b.toNat
                  · rw [if_neg h3, if_pos h4] at hyz; simp at hyz
                  · rw [if_neg h1, if_neg h2] at hxy
                    rw [if_neg h3, if_neg h4] at hyz
                    rw [if_neg (show ¬ a.toNat < c.toNat by omega),
                        if_neg (show ¬ c.toNat < a.toNat by omega)]
                    exact ih bs cs hxy hyz
    exact key a.data b.data c.data hab hbc

instance : IsAntisymm String strLe where
  antisymm a b hab hba := by
    have key : ∀ x y : List Char, lexLe x y = true → lexLe y x = true → x = y := by
      intro x
      induction x with
      | nil =>
        intro y _ hyx
        cases y with
        | nil => rfl
        | cons b bs => simp [lexLe] at hyx
      | cons a as ih =>
        intro y hxy hyx
        cases y with
        | nil => simp [lexLe] at hxy
        | cons b bs =>
          by_cases h1 : a.toNat < b.toNat <;> by_cases h2 : b.toNat < a.toNat <;>
            simp [lexLe, h1, h2] at hxy hyx ⊢
          · omega
          · have hc : a = b := by
              have : Char.ofNat a.toNat = Char.ofNat b.toNat := by
                have : a.toNat = b.toNat := by omega
                rw [this]
              rwa [Char.ofNat_toNat, Char.ofNat_toNat] at this
            exact ⟨hc, ih bs hxy hyx⟩
    exact String.ext (key a.data b.data hab hba)

/-- A raw employee-skill row as seen by create_skill_features
(train_clustering.py).  Numeric fields are Option-valued: a missing value in
the source data is a pandas NaN, which the aggregations silently skip. -/
structure RawRecord where
  employee_id : Option String
  skill : String
  proficiency_score : Option Rat
  years_experience : Option Rat
  deriving DecidableEq

/-- One row of the per-skill feature table produced by create_skill_features.
An average over an all-missing column is NaN, modelled as none. -/
structure SkillFeature where
  skill : String
  employee_count : Nat
  avg_proficiency : Option Rat
  avg_experience : Option Rat
  deriving DecidableEq

/-- Pandas mean over the non-null values of a column: none when the column is
empty (NaN), otherwise sum divided by length. -/
def optMean (xs : List Rat) : Option Rat :=
  if xs.length = 0 then none else some (xs.sum / (xs.length : Rat))

/-- The rows of the raw table belonging to one skill group
(df.groupby of train_clustering.py line 25). -/
def rowsFor (df : List RawRecord) (s : String) : List RawRecord :=
  df.filter (fun r => r.skill = s)

/-- The group keys of df.groupby over the skill column: pandas sorts the
distinct keys ascending. -/
def groupSkills (df : List RawRecord) : List String :=
  ((df.map RawRecord.skill).dedup).insertionSort strLe

/-- create_skill_features (train_clustering.py lines 22-31): group by skill,
aggregate employee_id by count (pandas count = number of non-null values, not
number of distinct values), proficiency_score and years_experience by mean
(skipping NaN). -/
def create_skill_features (df : List RawRecord) : List SkillFeature :=
  (groupSkills df).map fun s =>
    { skill := s
      employee_count := ((rowsFor df s).filterMap RawRecord.employee_id).length
      avg_proficiency := optMean ((rowsFor df s).filterMap RawRecord.proficiency_score)
      avg_experience := optMean ((rowsFor df s).filterMap RawRecord.years_experience) }

/-- The proficiency-to-score mapping of the Glue ETL job
(etl_job.py lines 42-49): the when-chain over the four known levels with
otherwise(2), i.e. any unrecognized value falls through to 2. -/
def proficiency_score_of (p : String) : Rat :=
  if p = "BEGINNER" then 1
  else if p = "INTERMEDIATE" then 2
  else if p = "ADVANCED" then 3
  else if p = "EXPERT" then 4
  else 2

/-- A row of the post-ETL skills_data table queried by the Lambda handler.
The ETL has already filtered null skill and employee_id and produced a
numeric proficiency_score, so all fields are total here. -/
structure CleanRecord where
  employee_id : String
  skill : String
  proficiency_score : Rat
  years_experience : Rat
  deriving DecidableEq

/-- A row of the Athena aggregation result parsed by the handler
(handler.py line 113): all numeric columns as rationals. -/
structure AthenaRow where
  skill : String
  employee_count : Rat
  avg_proficiency : Rat
  avg_experience : Rat
  deriving DecidableEq

/-- The skills_data rows of one skill group (the SQL GROUP BY skill). -/
def recordsFor (t : List CleanRecord) (s : String) : List CleanRecord :=
  t.filter (fun r => r.skill = s)

/-- query_skills_from_athena (handler.py lines 67-120): the SQL aggregation
SELECT skill, COUNT(DISTINCT employee_id), AVG(proficiency_score),
AVG(years_experience) GROUP BY skill.  SQL does not fix the group order;
one distinct-skill enumeration is chosen. -/
def query_skills_from_athena (t : List CleanRecord) : List AthenaRow :=
  ((t.map CleanRecord.skill).dedup).map fun s =>
    { skill := s
      employee_count := ((((recordsFor t s).map CleanRecord.employee_id).dedup).length : Rat)
      avg_proficiency := ((recordsFor t s).map CleanRecord.proficiency_score).sum /
        (((recordsFor t s).length : Nat) : Rat)
      avg_experience := ((recordsFor t s).map CleanRecord.years_experience).sum /
        (((recordsFor t s).length : Nat) : Rat) }

/-- A three-dimensional feature point (employee_count, avg_proficiency,
avg_experience), the row type of the matrix X in the handler. -/
structure Point3 where
  x : Rat
  y : Rat
  z : Rat
  deriving DecidableEq

/-- Column mean used by sklearn StandardScaler. -/
def colMean (xs : List Rat) : Rat := xs.sum / ((xs.length : Nat) : Rat)

/-- Population variance of a column, as sklearn StandardScaler computes it. -/
def colVar (xs : List Rat) : Rat :=
  (xs.map (fun v => (v - colMean xs) ^ 2)).sum / ((xs.length : Nat) : Rat)

/-- The per-column divisor of StandardScaler: the standard deviation, except
that a zero standard deviation (zero variance) is replaced by 1
(sklearn _handle_zeros_in_scale), so constant columns scale to 0 instead of
raising.  The square root applied to a nonzero variance is the abstract
parameter sq. -/
def scaleOf (sq : Rat → Rat) (xs : List Rat) : Rat :=
  if colVar xs = 0 then 1 else sq (colVar xs)

/-- StandardScaler fit_transform (handler.py lines 132-133): per dimension,
subtract the column mean and divide by the column scale.  Total: sklearn
raises no error for degenerate (zero-variance) dimensions. -/
def fit_transform (sq : Rat → Rat) (X : List Point3) : List Point3 :=
  X.map fun p =>
    { x := (p.x - colMean (X.map Point3.x)) / scaleOf sq (X.map Point3.x)
      y := (p.y - colMean (X.map Point3.y)) / scaleOf sq (X.map Point3.y)
      z := (p.z - colMean (X.map Point3.z)) / scaleOf sq (X.map Point3.z) }

/-- prepare_clustering_data (handler.py lines 123-139): select the three
numeric feature columns, standardize them, and keep the skill list and the
original table. -/
def prepare_clustering_data (sq : Rat → Rat) (df : List AthenaRow) :
    List Point3 × List String × List AthenaRow :=
  (fit_transform sq (df.map fun r => ⟨r.employee_count, r.avg_proficiency, r.avg_experience⟩),
   df.map AthenaRow.skill, df)

/-- KMeans(n_clusters=k, random_state=seed, n_init=10).fit_predict(X): the
fitted labels are a deterministic function fp of (k, seed, X); sklearn raises
ValueError when n_samples < n_clusters. -/
def kmeans_fit_predict (fp : Nat → Nat → List Point3 → List Nat)
    (k seed : Nat) (X : List Point3) : Except String (List Nat) :=
  if X.length < k then Except.error "n_samples should be >= n_clusters"
  else Except.ok (fp k seed X)

/-- sklearn silhouette_score(X, labels): a deterministic function sil of the
matrix and the labels, defined only when 2 <= n_labels <= n_samples - 1;
outside that range sklearn raises ValueError. -/
def silhouette_score (sil : List Point3 → List Nat → Rat)
    (X : List Point3) (labels : List Nat) : Except String Rat :=
  if 2 ≤ labels.dedup.length ∧ labels.dedup.length ≤ X.length - 1 then
    Except.ok (sil X labels)
  else Except.error "Number of labels is invalid"

/-- The candidate cluster counts of perform_clustering (handler.py line 153):
range(3, 8), i.e. the inclusive range [3, 7]. -/
def candidateKs : List Nat := List.range' 3 5

/-- The default candidate cluster counts of train_kmeans
(train_clustering.py line 43): range(3, 10), i.e. the inclusive range
[3, 9]. -/
def n_clusters_range : List Nat := List.range' 3 7

/-- One iteration of the k-search loop of perform_clustering (handler.py
lines 153-160): fit k-means with seed 42, score the labels, keep (k, score)
on strict improvement. -/
def exceptSelStep (fp : Nat → Nat → List Point3 → List Nat)
    (sil : List Point3 → List Nat → Rat) (X : List Point3)
    (acc : Except String (Nat × Rat)) (k : Nat) : Except String (Nat × Rat) := do
  let best ← acc
  let labels ← kmeans_fit_predict fp k 42 X
  let score ← silhouette_score sil X labels
  pure (if score > best.2 then (k, score) else best)

/-- The k-search loop of perform_clustering (handler.py lines 149-160),
starting from best_k = 5 and best_score = -1. -/
def perform_clustering_search (fp : Nat → Nat → List Point3 → List Nat)
    (sil : List Point3 → List Nat → Rat) (X : List Point3) :
    Except String (Nat × Rat) :=
  candidateKs.foldl (exceptSelStep fp sil X) (Except.ok (5, -1))

/-- One row of the cluster_stats table (handler.py lines 171-179). -/
structure ClusterStat where
  cluster_id : Nat
  num_skills : Nat
  total_employees : Rat
  avg_cluster_proficiency : Rat
  avg_cluster_experience : Rat
  deriving DecidableEq

/-- The rows of result_df carrying a given cluster_id. -/
def clusterRows (rows : List (AthenaRow × Nat)) (c : Nat) : List (AthenaRow × Nat) :=
  rows.filter (fun r => r.2 = c)

/-- result_df.groupby of cluster_id with agg count/sum/mean/mean
(handler.py lines 171-179); pandas sorts the distinct group keys. -/
def cluster_stats_of (rows : List (AthenaRow × Nat)) : List ClusterStat :=
  (((rows.map Prod.snd).dedup).insertionSort (fun a b => a ≤ b)).map fun c =>
    { cluster_id := c
      num_skills := (clusterRows rows c).length
      total_employees := ((clusterRows rows c).map (fun r => r.1.employee_count)).sum
      avg_cluster_proficiency := ((clusterRows rows c).map (fun r => r.1.avg_proficiency)).sum /
        (((clusterRows rows c).length : Nat) : Rat)
      avg_cluster_experience := ((clusterRows rows c).map (fun r => r.1.avg_experience)).sum /
        (((clusterRows rows c).length : Nat) : Rat) }

/-- The value returned by perform_clustering (handler.py lines 181-186):
the per-skill assignment rows, the cluster statistics, the final labels and
the best silhouette score of the search. -/
structure ClusterOutput where
  assignments : List (AthenaRow × Nat)
  cluster_stats : List ClusterStat
  cluster_labels : List Nat
  silhouette : Rat
  deriving DecidableEq

/-- perform_clustering (handler.py lines 142-186): run the k-search, re-fit
k-means with the selected best_k and the same seed 42, attach the labels to
the original rows positionally, and aggregate the cluster statistics. -/
def perform_clustering (fp : Nat → Nat → List Point3 → List Nat)
    (sil : List Point3 → List Nat → Rat) (X : List Point3)
    (odata : List AthenaRow) : Except String ClusterOutput := do
  let best ← perform_clustering_search fp sil X
  let labels ← kmeans_fit_predict fp best.1 42 X
  pure { assignments := odata.zip labels
         cluster_stats := cluster_stats_of (odata.zip labels)
         cluster_labels := labels
         silhouette := best.2 }

/-- The handler pipeline (lambda_handler, handler.py lines 35-48): Athena
aggregation, preparation/scaling, clustering. -/
def lambda_pipeline (fp : Nat → Nat → List Point3 → List Nat)
    (sil : List Point3 → List Nat → Rat) (sq : Rat → Rat)
    (records : List CleanRecord) : Except String ClusterOutput :=
  let df := query_skills_from_athena records
  let p := prepare_clustering_data sq df
  perform_clustering fp sil p.1 p.2.2

/-- The run summary stored by store_clustering_results (handler.py lines
209-215): number of cluster_stats rows, number of skills rows, and the
silhouette score of the search. -/
structure RunSummary where
  num_clusters : Nat
  num_skills : Nat
  silhouette : Rat
  deriving DecidableEq

/-- store_clustering_results summary construction (handler.py lines 209-215). -/
def store_summary (out : ClusterOutput) : RunSummary :=
  { num_clusters := out.cluster_stats.length
    num_skills := out.assignments.length
    silhouette := out.silhouette }

/-- One iteration of the train_kmeans loop (train_clustering.py lines 49-60):
fit k-means with seed 42; only when the partition has more than one distinct
label, score it and keep (model, k, score) on strict improvement.  The
tracked model is embedded as the pair (k, labels) it determines. -/
def tkStep (fp : Nat → Nat → List Point3 → List Nat)
    (sil : List Point3 → List Nat → Rat) (X : List Point3)
    (acc : Except String (Option (Nat × List Nat) × Nat × Rat)) (k : Nat) :
    Except String (Option (Nat × List Nat) × Nat × Rat) := do
  let st ← acc
  let labels ← kmeans_fit_predict fp k 42 X
  if 1 < labels.dedup.length then
    let score ← silhouette_score sil X labels
    pure (if score > st.2.2 then (some (k, labels), k, score) else st)
  else
    pure st

/-- train_kmeans (train_clustering.py lines 43-63), starting from
best_model = None, best_k = 5, best_score = -1. -/
def train_kmeans (fp : Nat → Nat → List Point3 → List Nat)
    (sil : List Point3 → List Nat → Rat) (X : List Point3) (ks : List Nat) :
    Except String (Option (Nat × List Nat) × Nat × Rat) :=
  ks.foldl (tkStep fp sil X) (Except.ok (none, 5, -1))

/-- train_kmeans with its default candidate range range(3, 10). -/
def train_kmeans_default (fp : Nat → Nat → List Point3 → List Nat)
    (sil : List Point3 → List Nat → Rat) (X : List Point3) :
    Except String (Option (Nat × List Nat) × Nat × Rat) :=
  train_kmeans fp sil X n_clusters_range

/-- The pure content of one k-search step: keep (k, score k) on strict
improvement of the tracked best score. -/
def selStep (s : Nat → Rat) (b : Nat × Rat) (k : Nat) : Nat × Rat :=
  if s k > b.2 then (k, s k) else b

/-- The pure k-search fold. -/
def selFold (s : Nat → Rat) (init : Nat × Rat) (ks : List Nat) : Nat × Rat :=
  ks.foldl (selStep s) init

/-- A concrete deterministic stand-in for KMeans fit_predict used by the
evaluation witnesses: label point i with i mod k, giving exactly
min k n distinct labels on n points. -/
def fpMod : Nat → Nat → List Point3 → List Nat :=
  fun k _ X => (List.range X.length).map (fun i => i % k)

/-- A concrete degenerate stand-in for KMeans fit_predict: every point in
cluster 0. -/
def fpOne : Nat → Nat → List Point3 → List Nat :=
  fun _ _ X => List.replicate X.length 0

/-- A concrete stand-in for the silhouette value: the number of distinct
labels (always above the -1 sentinel). -/
def silConst : List Point3 → List Nat → Rat :=
  fun _ labels => (labels.dedup.length : Rat)

/-- A second concrete scorer, used to exhibit independence from the scorer. -/
def silOther : List Point3 → List Nat → Rat :=
  fun _ _ => 99

/-- Concrete raw table: three records over two skills, all fields present,
deduplicated by (employee_id, skill). -/
def df0 : List RawRecord :=
  [⟨some "e1", "SQL", some 3, some 1⟩,
   ⟨some "e2", "PY", some 4, some 3⟩,
   ⟨some "e1", "PY", some 3, some 1⟩]

/-- Concrete raw table holding the same (employee, skill) record twice. -/
def dupdf : List RawRecord :=
  [⟨some "e1", "PYTHON", some 3, some 2⟩,
   ⟨some "e1", "PYTHON", some 3, some 2⟩]

/-- Concrete raw table with a missing proficiency_score in the first record. -/
def misdf : List RawRecord :=
  [⟨some "e1", "SQL", none, some 2⟩,
   ⟨some "e2", "SQL", some 4, some 2⟩]

/-- Concrete raw records for the reordering witness. -/
def recA : RawRecord := ⟨some "e1", "AWS", some 2, some 1⟩

/-- Concrete raw records for the reordering witness. -/
def recB : RawRecord := ⟨some "e2", "ML", some 3, some 4⟩

/-- A two-row scaled matrix: fewer rows than the smallest candidate k. -/
def X2 : List Point3 := [⟨0, 0, 0⟩, ⟨1, 1, 1⟩]

/-- An eight-row scaled matrix. -/
def X8 : List Point3 :=
  [⟨1, 2, 3⟩, ⟨2, 3, 4⟩, ⟨3, 4, 5⟩, ⟨4, 5, 6⟩, ⟨5, 6, 7⟩, ⟨6, 7, 8⟩, ⟨7, 8, 9⟩, ⟨8, 9, 10⟩]

/-- Nine identical points: enough samples for every candidate k of
train_kmeans, but a degenerate geometry. -/
def X9 : List Point3 := List.replicate 9 ⟨0, 0, 0⟩

/-- Ten identical points, for the all-skipped witness. -/
def X10 : List Point3 := List.replicate 10 ⟨0, 0, 0⟩

/-- Two identical points: every feature dimension has zero variance. -/
def Xc : List Point3 := [⟨1, 2, 3⟩, ⟨1, 2, 3⟩]

/-- Two points whose first dimension is constant. -/
def Xw : List Point3 := [⟨5, 1, 1⟩, ⟨5, 2, 7⟩]

/-- Eight Athena rows over eight distinct skills. -/
def odata8 : List AthenaRow :=
  [⟨"A", 1, 1, 1⟩, ⟨"B", 2, 1, 1⟩, ⟨"C", 3, 1, 1⟩, ⟨"D", 4, 1, 1⟩,
   ⟨"E", 5, 1, 1⟩, ⟨"F", 6, 1, 1⟩, ⟨"G", 7, 1, 1⟩, ⟨"H", 8, 1, 1⟩]

/-- Two concrete post-ETL records. -/
def recs1 : List CleanRecord := [⟨"e1", "SQL", 3, 1⟩, ⟨"e2", "PY", 2, 4⟩]

/-- Three concrete assignment rows over two clusters. -/
def rows3 : List (AthenaRow × Nat) :=
  [(⟨"A", 2, 3, 1⟩, 0), (⟨"B", 1, 2, 5⟩, 0), (⟨"C", 4, 1, 2⟩, 1)]

/-- Eight concrete post-ETL records over eight distinct skills. -/
def records8 : List CleanRecord :=
  [⟨"e1", "A", 1, 1⟩, ⟨"e2", "B", 2, 1⟩, ⟨"e3", "C", 3, 1⟩, ⟨"e4", "D", 4, 1⟩,
   ⟨"e5", "E", 1, 2⟩, ⟨"e6", "F", 2, 2⟩, ⟨"e7", "G", 3, 2⟩, ⟨"e8", "H", 4, 2⟩]

/-- The payload of a successful run (used only to name concrete outputs). -/
def okValue : Except String ClusterOutput → ClusterOutput
  | Except.ok v => v
  | Except.error _ => ⟨[], [], [], 0⟩

/-- The concrete output of the pipeline on records8 with the concrete fit and
scorer stand-ins. -/
def out8 : ClusterOutput :=
  okValue (lambda_pipeline fpMod silConst (fun q => q) records8)

end SkillsInventory

namespace SkillsInventory

/- ===== General lemmas about the embedded operations ===== -/

theorem except_bind_ok {α β : Type} (a : α) (f : α → Except String β) :
    (Except.ok a >>= f) = f a := rfl

theorem optMean_ne_nil (xs : List Rat) (h : xs ≠ []) :
    optMean xs = some (xs.sum / ((xs.length : Nat) : Rat)) := by
  unfold optMean
  rw [if_neg (fun hl => h (List.length_eq_zero.mp hl))]

theorem optMean_perm {a b : List Rat} (h : a.Perm b) : optMean a = optMean b := by
  unfold optMean
  rw [h.length_eq, h.sum_eq]

theorem filterMap_map_some {α β : Type} (f : α → Option β) :
    ∀ l : List α, (∀ x ∈ l, (f x).isSome) → l.map f = (l.filterMap f).map some := by
  intro l
  induction l with
  | nil => intro _; rfl
  | cons a t ih =>
    intro h
    obtain ⟨b, hb⟩ := Option.isSome_iff_exists.mp (h a (List.mem_cons_self a t))
    rw [List.map_cons, List.filterMap_cons_some hb, List.map_cons, hb,
      ih (fun x hx => h x (List.mem_cons_of_mem a hx))]

theorem csf_map_skill (df : List RawRecord) :
    (create_skill_features df).map SkillFeature.skill = groupSkills df := by
  unfold create_skill_features
  rw [List.map_map]
  exact List.map_id' _

theorem groupSkills_nodup (df : List RawRecord) : (groupSkills df).Nodup :=
  (List.perm_insertionSort strLe _).symm.nodup (List.nodup_dedup _)

theorem mem_groupSkills (df : List RawRecord) (s : String) :
    s ∈ groupSkills df ↔ s ∈ df.map RawRecord.skill := by
  unfold groupSkills
  rw [(List.perm_insertionSort strLe _).mem_iff, List.mem_dedup]

/- ===== Claim C2 ===== -/

/-- C2 (amended): on input deduplicated by (employee_id, skill) and with all
required fields present, create_skill_features produces exactly one feature
vector per distinct skill, with employee_count the number of records of that
skill, which then equals the number of distinct employee_ids holding it, and
with the averages the arithmetic means of that skill's proficiency scores and
years of experience.  (Without deduplication employee_count counts records,
not distinct employees: pandas count, not COUNT(DISTINCT).) -/
theorem C2_feature_builder (df : List RawRecord)
    (hdd : (df.map (fun r => (r.employee_id, r.skill))).Nodup)
    (hid : ∀ r ∈ df, (RawRecord.employee_id r).isSome)
    (hpf : ∀ r ∈ df, (RawRecord.proficiency_score r).isSome)
    (hex : ∀ r ∈ df, (RawRecord.years_experience r).isSome) :
    ((create_skill_features df).map SkillFeature.skill).Nodup ∧
    (∀ s, s ∈ (create_skill_features df).map SkillFeature.skill ↔
      s ∈ df.map RawRecord.skill) ∧
    (∀ v ∈ create_skill_features df,
      v.employee_count = (((rowsFor df v.skill).filterMap RawRecord.employee_id).dedup).length ∧
      ∃ ps es : List Rat,
        (rowsFor df v.skill).map RawRecord.proficiency_score = ps.map some ∧
        (rowsFor df v.skill).map RawRecord.years_experience = es.map some ∧
        ps ≠ [] ∧
        v.avg_proficiency = some (ps.sum / ((ps.length : Nat) : Rat)) ∧
        v.avg_experience = some (es.sum / ((es.length : Nat) : Rat))) := by
  refine ⟨?_, ?_, ?_⟩
  · rw [csf_map_skill]; exact groupSkills_nodup df
  · intro s; rw [csf_map_skill]; exact mem_groupSkills df s
  · intro v hv
    unfold create_skill_features at hv
    obtain ⟨s, hsmem, rfl⟩ := List.mem_map.mp hv
    have hsin : s ∈ df.map RawRecord.skill := (mem_groupSkills df s).mp hsmem
    obtain ⟨r0, hr0, hr0s⟩ := List.mem_map.mp hsin
    have hr0row : r0 ∈ rowsFor df s := by
      unfold rowsFor
      rw [List.mem_filter]
      exact ⟨hr0, by simp [hr0s]⟩
    have hsub : ∀ r ∈ rowsFor df s, r ∈ df := fun r hr => (List.mem_filter.mp hr).1
    have hskill : ∀ r ∈ rowsFor df s, r.skill = s := by
      intro r hr
      have h2 := (List.mem_filter.mp hr).2
      simpa using h2
    constructor
    · have hpairs : ((rowsFor df s).map (fun r => (r.employee_id, r.skill))).Nodup :=
        List.Nodup.sublist (List.Sublist.map _ (List.filter_sublist df)) hdd
      have hmapeq : (rowsFor df s).map (fun r => (r.employee_id, r.skill)) =
          ((rowsFor df s).map RawRecord.employee_id).map (fun e => (e, s)) := by
        rw [List.map_map]
        apply List.map_congr_left
        intro r hr
        simp [Function.comp, hskill r hr]
      have hids : ((rowsFor df s).map RawRecord.employee_id).Nodup := by
        rw [hmapeq] at hpairs
        exact List.Nodup.of_map _ hpairs
      have hfm : (rowsFor df s).map RawRecord.employee_id =
          ((rowsFor df s).filterMap RawRecord.employee_id).map some :=
        filterMap_map_some _ _ (fun r hr => hid r (hsub r hr))
      have hnd : ((rowsFor df s).filterMap RawRecord.employee_id).Nodup := by
        rw [hfm] at hids
        exact List.Nodup.of_map _ hids
      show ((rowsFor df s).filterMap RawRecord.employee_id).length = _
      rw [List.dedup_eq_self.mpr hnd]
    · obtain ⟨b0, hb0⟩ := Option.isSome_iff_exists.mp (hpf r0 hr0)
      have hpmem : b0 ∈ (rowsFor df s).filterMap RawRecord.proficiency_score :=
        List.mem_filterMap.mpr ⟨r0, hr0row, hb0⟩
      obtain ⟨c0, hc0⟩ := Option.isSome_iff_exists.mp (hex r0 hr0)
      have hemem : c0 ∈ (rowsFor df s).filterMap RawRecord.years_experience :=
        List.mem_filterMap.mpr ⟨r0, hr0row, hc0⟩
      refine ⟨(rowsFor df s).filterMap RawRecord.proficiency_score,
              (rowsFor df s).filterMap RawRecord.years_experience,
              filterMap_map_some _ _ (fun r hr => hpf r (hsub r hr)),
              filterMap_map_some _ _ (fun r hr => hex r (hsub r hr)),
              List.ne_nil_of_mem hpmem, ?_, ?_⟩
      · exact optMean_ne_nil _ (List.ne_nil_of_mem hpmem)
      · exact optMean_ne_nil _ (List.ne_nil_of_mem hemem)

/-- C2, counterexample to the claim as stated: a raw table holding the same
(employee, skill) record twice yields employee_count = 2 for PYTHON although
only one distinct employee_id holds that skill — create_skill_features
aggregates employee_id by pandas count, not by count of distinct values. -/
theorem C2_duplicate_record_count :
    (create_skill_features dupdf).map SkillFeature.employee_count = [2] ∧
    (((rowsFor dupdf "PYTHON").filterMap RawRecord.employee_id).dedup).length = 1 := by
  decide

/-- C2, witness: the amended theorem applied to a concrete deduplicated
table. -/
theorem C2_feature_builder_witness :
    ((create_skill_features df0).map SkillFeature.skill).Nodup ∧
    ("SQL" ∈ (create_skill_features df0).map SkillFeature.skill ↔
      "SQL" ∈ df0.map RawRecord.skill) := by
  have h := C2_feature_builder df0 (by decide) (by decide) (by decide) (by decide)
  exact ⟨h.1, h.2.1 "SQL"⟩

/- ===== Claim C5 ===== -/

/-- C5 (amended): no MalformedRecord error exists.  A record reaching
create_skill_features with a missing numeric field is processed silently:
the pandas aggregations count and average only the present values, and the
output still has exactly one row per distinct skill for every input,
malformed or not.  Upstream, the ETL job silently imputes the default score 2
for any unrecognized proficiency value. -/
theorem C5_missing_fields_silent (p : String) (df : List RawRecord)
    (hp : p ∉ (["BEGINNER", "INTERMEDIATE", "ADVANCED", "EXPERT"] : List String)) :
    proficiency_score_of p = 2 ∧
    (create_skill_features df).map SkillFeature.skill =
      ((df.map RawRecord.skill).dedup).insertionSort strLe := by
  constructor
  · simp only [List.mem_cons, List.not_mem_nil, or_false, not_or] at hp
    obtain ⟨h1, h2, h3, h4⟩ := hp
    unfold proficiency_score_of
    rw [if_neg h1, if_neg h2, if_neg h3, if_neg h4]
  · exact csf_map_skill df

/-- C5, counterexample to the claim as stated: a record with a missing
proficiency_score does not fail — the mean is taken over the present values
only — and the ETL maps the unrecognized proficiency WIZARD to 2 instead of
failing. -/
theorem C5_imputes_default :
    create_skill_features misdf =
      [{ skill := "SQL", employee_count := 2,
         avg_proficiency := some 4, avg_experience := some 2 }] ∧
    proficiency_score_of "WIZARD" = 2 := by
  decide

/-- C5, witness: the amended theorem applied to a concrete unrecognized
proficiency value and the table with a missing field. -/
theorem C5_missing_fields_silent_witness :
    proficiency_score_of "CERTIFIED" = 2 ∧
    (create_skill_features misdf).map SkillFeature.skill =
      ((misdf.map RawRecord.skill).dedup).insertionSort strLe :=
  C5_missing_fields_silent "CERTIFIED" misdf (by decide)

/- ===== Claim C9 ===== -/

/-- C9: create_skill_features is invariant under permutation of its input
records: the group keys are the sorted distinct skills, and each group's
count and means depend only on the multiset of rows of that skill. -/
theorem C9_permutation_invariant (l₁ l₂ : List RawRecord) (h : l₁.Perm l₂) :
    create_skill_features l₁ = create_skill_features l₂ := by
  have hsk : groupSkills l₁ = groupSkills l₂ := by
    unfold groupSkills
    exact List.eq_of_perm_of_sorted
      ((List.perm_insertionSort strLe _).trans
        (((h.map RawRecord.skill).dedup).trans (List.perm_insertionSort strLe _).symm))
      (List.sorted_insertionSort strLe _) (List.sorted_insertionSort strLe _)
  unfold create_skill_features
  rw [hsk]
  apply List.map_congr_left
  intro s _
  have hr : (rowsFor l₁ s).Perm (rowsFor l₂ s) := h.filter _
  have e1 : ((rowsFor l₁ s).filterMap RawRecord.employee_id).length =
      ((rowsFor l₂ s).filterMap RawRecord.employee_id).length :=
    (hr.filterMap _).length_eq
  have e2 : optMean ((rowsFor l₁ s).filterMap RawRecord.proficiency_score) =
      optMean ((rowsFor l₂ s).filterMap RawRecord.proficiency_score) :=
    optMean_perm (hr.filterMap _)
  have e3 : optMean ((rowsFor l₁ s).filterMap RawRecord.years_experience) =
      optMean ((rowsFor l₂ s).filterMap RawRecord.years_experience) :=
    optMean_perm (hr.filterMap _)
  rw [e1, e2, e3]

/-- C9, witness: the theorem applied to a concrete two-record table and its
reversal. -/
theorem C9_permutation_invariant_witness :
    create_skill_features [recA, recB] = create_skill_features [recB, recA] :=
  C9_permutation_invariant [recA, recB] [recB, recA] (by decide)

/- ===== The k-search fold: pure characterization ===== -/

theorem selFold_cons (s : Nat → Rat) (init : Nat × Rat) (a : Nat) (t : List Nat) :
    selFold s init (a :: t) = selFold s (selStep s init a) t := rfl

theorem selStep_snd_le (s : Nat → Rat) (init : Nat × Rat) (a : Nat) :
    init.2 ≤ (selStep s init a).2 := by
  unfold selStep
  rcases lt_or_ge init.2 (s a) with h | h
  · rw [if_pos h]
    exact le_of_lt h
  · rw [if_neg (not_lt.mpr h)]

theorem selFold_snd_le (s : Nat → Rat) :
    ∀ (ks : List Nat) (init : Nat × Rat), init.2 ≤ (selFold s init ks).2 := by
  intro ks
  induction ks with
  | nil => intro init; exact le_refl _
  | cons a t ih =>
    intro init
    rw [selFold_cons]
    exact le_trans (selStep_snd_le s init a) (ih (selStep s init a))

theorem selFold_le (s : Nat → Rat) :
    ∀ (ks : List Nat) (init : Nat × Rat), ∀ k ∈ ks, s k ≤ (selFold s init ks).2 := by
  intro ks
  induction ks with
  | nil => intro init k hk; exact absurd hk (List.not_mem_nil k)
  | cons a t ih =>
    intro init k hk
    rw [selFold_cons]
    rcases List.mem_cons.mp hk with rfl | hk2
    · refine le_trans ?_ (selFold_snd_le s t (selStep s init k))
      unfold selStep
      rcases lt_or_ge init.2 (s k) with h | h
      · rw [if_pos h]
      · rw [if_neg (not_lt.mpr h)]
        exact h
    · exact ih (selStep s init a) k hk2

theorem selFold_eq_or (s : Nat → Rat) :
    ∀ (ks : List Nat) (init : Nat × Rat),
      selFold s init ks = init ∨
      ((selFold s init ks).1 ∈ ks ∧ s (selFold s init ks).1 = (selFold s init ks).2 ∧
        init.2 < (selFold s init ks).2) := by
  intro ks
  induction ks with
  | nil => intro init; left; rfl
  | cons a t ih =>
    intro init
    rw [selFold_cons]
    by_cases hgt : init.2 < s a
    · have e : selStep s init a = (a, s a) := by
        unfold selStep
        rw [if_pos hgt]
      rcases ih (selStep s init a) with h | ⟨h1, h2, h3⟩
      · right
        rw [h, e]
        exact ⟨List.mem_cons_self a t, rfl, hgt⟩
      · right
        refine ⟨List.mem_cons_of_mem a h1, h2, lt_of_le_of_lt ?_ h3⟩
        rw [e]
        exact le_of_lt hgt
    · have e : selStep s init a = init := by
        unfold selStep
        rw [if_neg hgt]
      rw [e]
      rcases ih init with h | ⟨h1, h2, h3⟩
      · left
        exact h
      · right
        exact ⟨List.mem_cons_of_mem a h1, h2, h3⟩

theorem selFold_first (s : Nat → Rat) :
    ∀ ks : List Nat, List.Pairwise (fun a b => a < b) ks →
    ∀ init : Nat × Rat, init.2 < (selFold s init ks).2 →
    ∀ k ∈ ks, k < (selFold s init ks).1 → s k < (selFold s init ks).2 := by
  intro ks
  induction ks with
  | nil =>
    intro _ init h
    exact absurd h (lt_irrefl _)
  | cons a t ih =>
    intro hp init hlt k hk hklt
    obtain ⟨ha, ht⟩ := List.pairwise_cons.mp hp
    rw [selFold_cons] at hlt hklt ⊢
    rcases List.mem_cons.mp hk with rfl | hk2
    · by_cases hgt : init.2 < s k
      · have e : selStep s init k = (k, s k) := by
          unfold selStep
          rw [if_pos hgt]
        rcases selFold_eq_or s t (selStep s init k) with h | ⟨-, -, h3⟩
        · rw [h, e] at hklt
          exact absurd hklt (lt_irrefl k)
        · rw [e] at h3 ⊢
          exact h3
      · have e : selStep s init k = init := by
          unfold selStep
          rw [if_neg hgt]
        rw [e] at hlt ⊢
        exact lt_of_le_of_lt (not_lt.mp hgt) hlt
    · by_cases hi : (selStep s init a).2 < (selFold s (selStep s init a) t).2
      · exact ih ht (selStep s init a) hi k hk2 hklt
      · rcases selFold_eq_or s t (selStep s init a) with h | ⟨-, -, h3⟩
        · rw [h] at hlt hklt ⊢
          by_cases hgt : init.2 < s a
          · have e : selStep s init a = (a, s a) := by
              unfold selStep
              rw [if_pos hgt]
            rw [e] at hklt
            exact absurd hklt (not_lt.mpr (le_of_lt (ha k hk2)))
          · have e : selStep s init a = init := by
              unfold selStep
              rw [if_neg hgt]
            rw [e] at hlt
            exact absurd hlt (lt_irrefl _)
        · exact absurd h3 hi

/- ===== Bridging the Except-level folds to the pure fold ===== -/

theorem foldl_search_ok (fp : Nat → Nat → List Point3 → List Nat)
    (sil : List Point3 → List Nat → Rat) (X : List Point3) :
    ∀ ks : List Nat,
    (∀ k ∈ ks, ¬ X.length < k ∧ 2 ≤ ((fp k 42 X).dedup).length ∧
      ((fp k 42 X).dedup).length ≤ X.length - 1) →
    ∀ init : Nat × Rat,
      ks.foldl (exceptSelStep fp sil X) (Except.ok init) =
      Except.ok (selFold (fun k => sil X (fp k 42 X)) init ks) := by
  intro ks
  induction ks with
  | nil => intro _ init; rfl
  | cons a t ih =>
    intro h init
    obtain ⟨h1, h2, h3⟩ := h a (List.mem_cons_self a t)
    have e1 : kmeans_fit_predict fp a 42 X = Except.ok (fp a 42 X) := by
      unfold kmeans_fit_predict
      rw [if_neg h1]
    have e2 : silhouette_score sil X (fp a 42 X) = Except.ok (sil X (fp a 42 X)) := by
      unfold silhouette_score
      rw [if_pos ⟨h2, h3⟩]
    have step : exceptSelStep fp sil X (Except.ok init) a =
        Except.ok (selStep (fun k => sil X (fp k 42 X)) init a) := by
      unfold exceptSelStep
      simp only [except_bind_ok, e1, e2, selStep]
      rfl
    rw [List.foldl_cons, step,
      ih (fun k hk => h k (List.mem_cons_of_mem a hk))
        (selStep (fun k => sil X (fp k 42 X)) init a),
      selFold_cons]

theorem train_kmeans_skip (fp : Nat → Nat → List Point3 → List Nat)
    (sil : List Point3 → List Nat → Rat) (X : List Point3) :
    ∀ ks : List Nat,
    (∀ k ∈ ks, ¬ X.length < k ∧ ((fp k 42 X).dedup).length ≤ 1) →
    ∀ st : Option (Nat × List Nat) × Nat × Rat,
      ks.foldl (tkStep fp sil X) (Except.ok st) = Except.ok st := by
  intro ks
  induction ks with
  | nil => intro _ st; rfl
  | cons a t ih =>
    intro h st
    obtain ⟨h1, h2⟩ := h a (List.mem_cons_self a t)
    have e1 : kmeans_fit_predict fp a 42 X = Except.ok (fp a 42 X) := by
      unfold kmeans_fit_predict
      rw [if_neg h1]
    have hno : ¬ 1 < ((fp a 42 X).dedup).length := by omega
    have step : tkStep fp sil X (Except.ok st) a = Except.ok st := by
      unfold tkStep
      simp only [except_bind_ok, e1, if_neg hno]
      rfl
    rw [List.foldl_cons, step, ih (fun k hk => h k (List.mem_cons_of_mem a hk)) st]

/-- Every candidate k of the handler's search satisfies the preconditions of
both sklearn calls once the matrix has at least 8 rows and each fit yields
exactly k distinct labels. -/
theorem candidate_conditions (fp : Nat → Nat → List Point3 → List Nat)
    (X : List Point3) (h8 : 8 ≤ X.length)
    (hk : ∀ k ∈ candidateKs, ((fp k 42 X).dedup).length = k) :
    ∀ k ∈ candidateKs, ¬ X.length < k ∧ 2 ≤ ((fp k 42 X).dedup).length ∧
      ((fp k 42 X).dedup).length ≤ X.length - 1 := by
  intro k hkm
  have hk2 := hk k hkm
  have hbounds : 3 ≤ k ∧ k ≤ 7 := by
    have hmem : k ∈ [3, 4, 5, 6, 7] := by
      have e : candidateKs = [3, 4, 5, 6, 7] := by decide
      exact e ▸ hkm
    simp only [List.mem_cons, List.not_mem_nil, or_false] at hmem
    rcases hmem with rfl | rfl | rfl | rfl | rfl <;> omega
  refine ⟨by omega, ?_, ?_⟩
  · rw [hk2]
    omega
  · rw [hk2]
    omega

/-- The k-search of perform_clustering, characterized: whenever every
candidate can be fitted and scored and some candidate scores above the -1
sentinel, the search returns the first strict maximum of the per-candidate
silhouette scores. -/
theorem search_characterization (fp : Nat → Nat → List Point3 → List Nat)
    (sil : List Point3 → List Nat → Rat) (X : List Point3)
    (h8 : 8 ≤ X.length)
    (hk : ∀ k ∈ candidateKs, ((fp k 42 X).dedup).length = k)
    (hs : ∃ k ∈ candidateKs, -1 < sil X (fp k 42 X)) :
    ∃ bk bs, perform_clustering_search fp sil X = Except.ok (bk, bs) ∧
      bk ∈ candidateKs ∧ bs = sil X (fp bk 42 X) ∧
      (∀ k ∈ candidateKs, sil X (fp k 42 X) ≤ bs) ∧
      (∀ k ∈ candidateKs, k < bk → sil X (fp k 42 X) < bs) := by
  have hok := candidate_conditions fp X h8 hk
  have hfold := foldl_search_ok fp sil X candidateKs hok (5, -1)
  have hinit : ((5 : Nat), (-1 : Rat)).2 <
      (selFold (fun k => sil X (fp k 42 X)) (5, -1) candidateKs).2 := by
    obtain ⟨k0, hk0m, hk0⟩ := hs
    exact lt_of_lt_of_le hk0
      (selFold_le (fun k => sil X (fp k 42 X)) candidateKs (5, -1) k0 hk0m)
  rcases selFold_eq_or (fun k => sil X (fp k 42 X)) candidateKs (5, -1)
    with h | ⟨h1, h2, h3⟩
  · rw [h] at hinit
    exact absurd hinit (lt_irrefl _)
  · refine ⟨(selFold (fun k => sil X (fp k 42 X)) (5, -1) candidateKs).1,
      (selFold (fun k => sil X (fp k 42 X)) (5, -1) candidateKs).2,
      hfold, h1, h2.symm, ?_, ?_⟩
    · intro k hkm
      exact selFold_le (fun k => sil X (fp k 42 X)) candidateKs (5, -1) k hkm
    · intro k hkm hlt
      exact selFold_first (fun k => sil X (fp k 42 X)) candidateKs (by decide)
        (5, -1) hinit k hkm hlt

/- ===== Claim C1 ===== -/

/-- C1 (amended): the k-search of perform_clustering evaluates the default
candidate range [3, 7] in increasing order and, for every scaled feature
matrix with at least 8 rows — so that every candidate can be fitted
(KMeans needs n_samples >= k) and scored (silhouette needs
n_labels <= n_samples - 1) — whose candidate fits each produce exactly k
distinct labels and at least one of which scores above the -1 sentinel, it
returns the candidate with the strictly highest silhouette score, keeping
the first (smallest) k on ties. -/
theorem C1_ksearch_first_strict_max (fp : Nat → Nat → List Point3 → List Nat)
    (sil : List Point3 → List Nat → Rat) (X : List Point3)
    (h8 : 8 ≤ X.length)
    (hk : ∀ k ∈ candidateKs, ((fp k 42 X).dedup).length = k)
    (hs : ∃ k ∈ candidateKs, -1 < sil X (fp k 42 X)) :
    candidateKs = [3, 4, 5, 6, 7] ∧
    List.Pairwise (fun a b => a < b) candidateKs ∧
    ∃ bk bs, perform_clustering_search fp sil X = Except.ok (bk, bs) ∧
      bk ∈ candidateKs ∧ bs = sil X (fp bk 42 X) ∧
      (∀ k ∈ candidateKs, sil X (fp k 42 X) ≤ bs) ∧
      (∀ k ∈ candidateKs, k < bk → sil X (fp k 42 X) < bs) :=
  ⟨by decide, by decide, search_characterization fp sil X h8 hk hs⟩

/-- C1, counterexample to the claim as stated: on a matrix with only 2 rows
the first candidate k = 3 already fails the KMeans precondition
n_samples >= n_clusters, so the search raises instead of evaluating the
candidates and returning a best model. -/
theorem C1_small_matrix_errors :
    perform_clustering_search fpMod silConst X2 =
      Except.error "n_samples should be >= n_clusters" := by rfl

/-- C1, witness: the amended theorem applied to a concrete 8-row matrix with
the concrete deterministic fit stand-in. -/
theorem C1_ksearch_first_strict_max_witness :
    8 ≤ X8.length ∧
    (candidateKs = [3, 4, 5, 6, 7] ∧
     List.Pairwise (fun a b => a < b) candidateKs ∧
     ∃ bk bs, perform_clustering_search fpMod silConst X8 = Except.ok (bk, bs) ∧
       bk ∈ candidateKs ∧ bs = silConst X8 (fpMod bk 42 X8) ∧
       (∀ k ∈ candidateKs, silConst X8 (fpMod k 42 X8) ≤ bs) ∧
       (∀ k ∈ candidateKs, k < bk → silConst X8 (fpMod k 42 X8) < bs)) :=
  ⟨by decide, C1_ksearch_first_strict_max fpMod silConst X8 (by decide)
    (by decide) (by decide)⟩

/- ===== Claim C3 ===== -/

/-- C3 (amended): in train_kmeans a candidate k whose partition has fewer
than 2 distinct labels is skipped — the silhouette scorer is never consulted,
so the result does not depend on it — and when every candidate in the range
is skipped, train_kmeans returns the default (best_model = None, best_k = 5,
best_score = -1) instead of raising an InsufficientDataError: no such error
exists in the code. -/
theorem C3_all_skipped_default (fp : Nat → Nat → List Point3 → List Nat)
    (sil sil2 : List Point3 → List Nat → Rat) (X : List Point3) (ks : List Nat)
    (h : ∀ k ∈ ks, ¬ X.length < k ∧ ((fp k 42 X).dedup).length ≤ 1) :
    train_kmeans fp sil X ks = Except.ok (none, 5, -1) ∧
    train_kmeans fp sil X ks = train_kmeans fp sil2 X ks := by
  constructor
  · exact train_kmeans_skip fp sil X ks h (none, 5, -1)
  · rw [show train_kmeans fp sil X ks = Except.ok (none, 5, -1) from
        train_kmeans_skip fp sil X ks h (none, 5, -1),
      show train_kmeans fp sil2 X ks = Except.ok (none, 5, -1) from
        train_kmeans_skip fp sil2 X ks h (none, 5, -1)]

/-- C3, counterexample to the claim as stated: on nine identical points every
candidate k in range(3, 10) produces a single distinct label, every candidate
is skipped, and train_kmeans returns Except.ok (None, 5, -1) — a default
model — rather than failing with an InsufficientDataError. -/
theorem C3_all_skipped_no_error :
    train_kmeans_default fpOne silConst X9 = Except.ok (none, 5, -1) := by rfl

/-- C3, witness: the amended theorem applied to ten identical points and two
different scorers. -/
theorem C3_all_skipped_default_witness :
    train_kmeans fpOne silConst X10 n_clusters_range = Except.ok (none, 5, -1) ∧
    train_kmeans fpOne silConst X10 n_clusters_range =
      train_kmeans fpOne silOther X10 n_clusters_range :=
  C3_all_skipped_default fpOne silConst silOther X10 n_clusters_range (by decide)

/- ===== Claim C6 ===== -/

/-- C6: the pipeline is deterministic.  In the embedding every source of
randomness is the seeded KMeans initialization, a pure function of
(k, seed, X) applied at the fixed seed 42 at both call sites, so two runs on
equal inputs with the same candidate range and seed produce equal search
results (chosen k and score) and equal outputs (assignments, labels,
statistics, silhouette). -/
theorem C6_deterministic (fp : Nat → Nat → List Point3 → List Nat)
    (sil : List Point3 → List Nat → Rat) (sq : Rat → Rat)
    (r₁ r₂ : List CleanRecord) (h : r₁ = r₂) :
    lambda_pipeline fp sil sq r₁ = lambda_pipeline fp sil sq r₂ ∧
    perform_clustering_search fp sil
        (prepare_clustering_data sq (query_skills_from_athena r₁)).1 =
      perform_clustering_search fp sil
        (prepare_clustering_data sq (query_skills_from_athena r₂)).1 := by
  subst h
  exact ⟨rfl, rfl⟩

/-- C6, witness: the theorem applied to a concrete record table given twice. -/
theorem C6_deterministic_witness :
    lambda_pipeline fpMod silConst (fun q => q) recs1 =
      lambda_pipeline fpMod silConst (fun q => q) recs1 ∧
    perform_clustering_search fpMod silConst
        (prepare_clustering_data (fun q => q) (query_skills_from_athena recs1)).1 =
      perform_clustering_search fpMod silConst
        (prepare_clustering_data (fun q => q) (query_skills_from_athena recs1)).1 :=
  C6_deterministic fpMod silConst (fun q => q) recs1 recs1 rfl

/- ===== Claim C10 ===== -/

/-- C10: after the search selects best_k, perform_clustering re-runs a fresh
k-means fit with best_k and the same seed 42; since the fit is a
deterministic function of (k, seed, X), the final labels equal the labels of
the best-scoring partition evaluated during the search, and the silhouette
score reported in the stored run summary is exactly the score of the stored
labels. -/
theorem C10_refit_matches_search (fp : Nat → Nat → List Point3 → List Nat)
    (sil : List Point3 → List Nat → Rat) (X : List Point3)
    (odata : List AthenaRow) (h8 : 8 ≤ X.length)
    (hk : ∀ k ∈ candidateKs, ((fp k 42 X).dedup).length = k)
    (hs : ∃ k ∈ candidateKs, -1 < sil X (fp k 42 X)) :
    ∃ out bk, perform_clustering fp sil X odata = Except.ok out ∧
      perform_clustering_search fp sil X = Except.ok (bk, out.silhouette) ∧
      bk ∈ candidateKs ∧
      out.cluster_labels = fp bk 42 X ∧
      out.silhouette = sil X out.cluster_labels ∧
      (store_summary out).silhouette = sil X out.cluster_labels := by
  obtain ⟨bk, bs, hse, hmem, hbs, -, -⟩ := search_characterization fp sil X h8 hk hs
  have hkm : ¬ X.length < bk := by
    have hmem5 : bk ∈ [3, 4, 5, 6, 7] := by
      have e : candidateKs = [3, 4, 5, 6, 7] := by decide
      exact e ▸ hmem
    simp only [List.mem_cons, List.not_mem_nil, or_false] at hmem5
    rcases hmem5 with rfl | rfl | rfl | rfl | rfl <;> omega
  have e1 : kmeans_fit_predict fp bk 42 X = Except.ok (fp bk 42 X) := by
    unfold kmeans_fit_predict
    rw [if_neg hkm]
  refine ⟨{ assignments := odata.zip (fp bk 42 X)
            cluster_stats := cluster_stats_of (odata.zip (fp bk 42 X))
            cluster_labels := fp bk 42 X
            silhouette := bs }, bk, ?_, hse, hmem, rfl, hbs, hbs⟩
  unfold perform_clustering
  simp only [hse, except_bind_ok, e1]
  rfl

/-- C10, witness: the theorem applied to the concrete 8-row matrix, rows and
stand-ins. -/
theorem C10_refit_matches_search_witness :
    ∃ out bk, perform_clustering fpMod silConst X8 odata8 = Except.ok out ∧
      perform_clustering_search fpMod silConst X8 = Except.ok (bk, out.silhouette) ∧
      bk ∈ candidateKs ∧
      out.cluster_labels = fpMod bk 42 X8 ∧
      out.silhouette = silConst X8 out.cluster_labels ∧
      (store_summary out).silhouette = silConst X8 out.cluster_labels :=
  C10_refit_matches_search fpMod silConst X8 odata8 (by decide) (by decide) (by decide)

/- ===== Claim C4 ===== -/

theorem list_sum_nonneg : ∀ l : List Rat, (∀ v ∈ l, 0 ≤ v) → 0 ≤ l.sum := by
  intro l
  induction l with
  | nil => intro _; exact le_refl 0
  | cons a t ih =>
    intro h
    rw [List.sum_cons]
    exact add_nonneg (h a (List.mem_cons_self a t))
      (ih (fun v hv => h v (List.mem_cons_of_mem a hv)))

theorem list_sum_zero : ∀ l : List Rat,
    (∀ v ∈ l, 0 ≤ v) → l.sum = 0 → ∀ v ∈ l, v = 0 := by
  intro l
  induction l with
  | nil => intro _ _ v hv; exact absurd hv (List.not_mem_nil v)
  | cons a t ih =>
    intro hpos hsum v hv
    have hts : 0 ≤ t.sum :=
      list_sum_nonneg t (fun w hw => hpos w (List.mem_cons_of_mem a hw))
    have ha : 0 ≤ a := hpos a (List.mem_cons_self a t)
    rw [List.sum_cons] at hsum
    rcases List.mem_cons.mp hv with rfl | hv2
    · linarith
    · exact ih (fun w hw => hpos w (List.mem_cons_of_mem a hw)) (by linarith) v hv2

/-- A column of zero (population) variance is constant, equal to its mean. -/
theorem colVar_zero_all_mean (xs : List Rat) (hne : xs ≠ [])
    (hv : colVar xs = 0) : ∀ v ∈ xs, v = colMean xs := by
  have hlen : ((xs.length : Nat) : Rat) ≠ 0 := by
    have h0 : xs.length ≠ 0 := fun h => hne (List.length_eq_zero.mp h)
    exact_mod_cast h0
  unfold colVar at hv
  rw [div_eq_zero_iff] at hv
  rcases hv with hv | hv
  · intro v hvmem
    have hsq : ∀ w ∈ xs.map (fun u => (u - colMean xs) ^ 2), 0 ≤ w := by
      intro w hw
      obtain ⟨u, -, rfl⟩ := List.mem_map.mp hw
      exact sq_nonneg _
    have hz := list_sum_zero _ hsq hv ((v - colMean xs) ^ 2)
      (List.mem_map.mpr ⟨v, hvmem, rfl⟩)
    have hsub : v - colMean xs = 0 :=
      (pow_eq_zero_iff (by omega : (2 : Nat) ≠ 0)).mp hz
    linarith
  · exact absurd hv hlen

/-- C4 (amended): StandardScaler does not fail on a zero-variance dimension;
there is no DegenerateFeatureError in the code.  sklearn silently replaces
the zero standard deviation by 1, so the dimension is mapped to all zeros,
whatever the square root implementation. -/
theorem C4_zero_variance_silent (sq : Rat → Rat) (X : List Point3)
    (hne : X ≠ []) (hvar : colVar (X.map Point3.x) = 0) :
    (fit_transform sq X).map Point3.x = List.replicate X.length 0 := by
  have hmapne : X.map Point3.x ≠ [] := by
    intro h
    exact hne (List.map_eq_nil_iff.mp h)
  have hval := colVar_zero_all_mean _ hmapne hvar
  have hscale : scaleOf sq (X.map Point3.x) = 1 := by
    unfold scaleOf
    rw [if_pos hvar]
  rw [List.eq_replicate_iff]
  constructor
  · unfold fit_transform
    rw [List.length_map, List.length_map]
  · intro b hb
    unfold fit_transform at hb
    rw [List.map_map] at hb
    obtain ⟨p, hp, rfl⟩ := List.mem_map.mp hb
    have hpx : p.x = colMean (X.map Point3.x) :=
      hval p.x (List.mem_map.mpr ⟨p, hp, rfl⟩)
    show (p.x - colMean (X.map Point3.x)) / scaleOf sq (X.map Point3.x) = 0
    rw [hpx, sub_self, zero_div]

/-- C4, counterexample to the claim as stated: on a table where every
dimension has zero variance, fit_transform raises nothing and returns the
all-zeros matrix — the degenerate input is silently patched, not reported. -/
theorem C4_degenerate_no_error :
    fit_transform (fun q => q) Xc = [⟨0, 0, 0⟩, ⟨0, 0, 0⟩] := by decide

/-- C4, witness: the amended theorem applied to a concrete matrix whose first
dimension is constant. -/
theorem C4_zero_variance_silent_witness :
    Xw ≠ [] ∧ colVar (Xw.map Point3.x) = 0 ∧
    (fit_transform (fun q => q) Xw).map Point3.x = List.replicate Xw.length 0 :=
  ⟨by decide, by decide,
   C4_zero_variance_silent (fun q => q) Xw (by decide) (by decide)⟩

/- ===== Claim C7 ===== -/

theorem length_filter_eq_count {α : Type} [DecidableEq α] (f : α → Nat)
    (c : Nat) : ∀ l : List α,
    (l.filter (fun x => f x = c)).length = (l.map f).count c := by
  intro l
  induction l with
  | nil => rfl
  | cons a t ih =>
    rw [List.filter_cons, List.map_cons, List.count_cons]
    by_cases h : f a = c
    · simp [h, ih]
    · simp [h, ih]

theorem nodup_filter_eq_length_one {l : List Nat} {c : Nat} (hnd : l.Nodup)
    (hc : c ∈ l) : (l.filter (fun x => x = c)).length = 1 := by
  induction l with
  | nil => exact absurd hc (List.not_mem_nil c)
  | cons a t ih =>
    rw [List.filter_cons]
    obtain ⟨hna, hndt⟩ := List.pairwise_cons.mp hnd
    by_cases h : a = c
    · subst h
      rw [if_pos (by simp)]
      rw [List.length_cons]
      have hnil : t.filter (fun x => x = a) = [] := by
        rw [List.filter_eq_nil_iff]
        intro x hx
        simpa using fun e => (hna x hx) e.symm
      rw [hnil]
      rfl
    · rcases List.mem_cons.mp hc with rfl | hc2
      · exact absurd rfl h
      · rw [if_neg (by simpa using h)]
        exact ih hndt hc2

theorem cluster_stats_ids (rows : List (AthenaRow × Nat)) :
    (cluster_stats_of rows).map ClusterStat.cluster_id =
      ((rows.map Prod.snd).dedup).insertionSort (fun a b => a ≤ b) := by
  unfold cluster_stats_of
  rw [List.map_map]
  exact List.map_id' _

theorem cluster_stats_ids_nodup (rows : List (AthenaRow × Nat)) :
    ((cluster_stats_of rows).map ClusterStat.cluster_id).Nodup := by
  rw [cluster_stats_ids]
  exact (List.perm_insertionSort _ _).symm.nodup (List.nodup_dedup _)

theorem mem_cluster_stats_ids (rows : List (AthenaRow × Nat)) (c : Nat) :
    c ∈ (cluster_stats_of rows).map ClusterStat.cluster_id ↔
      c ∈ rows.map Prod.snd := by
  rw [cluster_stats_ids, (List.perm_insertionSort _ _).mem_iff, List.mem_dedup]

theorem sum_num_skills (rows : List (AthenaRow × Nat)) :
    ((cluster_stats_of rows).map ClusterStat.num_skills).sum = rows.length := by
  unfold cluster_stats_of
  rw [List.map_map]
  show ((((rows.map Prod.snd).dedup).insertionSort (fun a b => a ≤ b)).map
      (fun c => (clusterRows rows c).length)).sum = rows.length
  rw [((List.perm_insertionSort (fun a b : Nat => a ≤ b)
      ((rows.map Prod.snd).dedup)).map (fun c => (clusterRows rows c).length)).sum_eq]
  unfold clusterRows
  rw [List.map_congr_left
    (fun c _ => length_filter_eq_count Prod.snd c rows)]
  rw [List.sum_map_count_dedup_eq_length]
  exact List.length_map _ _

/-- C7: the summarizer produces exactly one summary row per distinct
cluster_id occurring in the assignment rows, no rows for absent ids, and for
each cluster num_skills counts its rows, total_employees sums their
employee_count, and the two cluster averages are the unweighted arithmetic
means of the per-skill averages (each skill contributing equally). -/
theorem C7_cluster_summaries (rows : List (AthenaRow × Nat)) (c : Nat)
    (hc : c ∈ rows.map Prod.snd) :
    ((cluster_stats_of rows).filter (fun w => w.cluster_id = c)).length = 1 ∧
    (∀ w ∈ cluster_stats_of rows, w.cluster_id ∈ rows.map Prod.snd) ∧
    (∀ w ∈ cluster_stats_of rows, w.cluster_id = c →
      w.num_skills = (clusterRows rows c).length ∧
      w.total_employees = ((clusterRows rows c).map (fun r => r.1.employee_count)).sum ∧
      w.avg_cluster_proficiency =
        ((clusterRows rows c).map (fun r => r.1.avg_proficiency)).sum /
          (((clusterRows rows c).length : Nat) : Rat) ∧
      w.avg_cluster_experience =
        ((clusterRows rows c).map (fun r => r.1.avg_experience)).sum /
          (((clusterRows rows c).length : Nat) : Rat)) := by
  refine ⟨?_, ?_, ?_⟩
  · unfold cluster_stats_of
    rw [List.filter_map, List.length_map]
    have hnd : (((rows.map Prod.snd).dedup).insertionSort (fun a b => a ≤ b)).Nodup :=
      (List.perm_insertionSort _ _).symm.nodup (List.nodup_dedup _)
    have hcm : c ∈ ((rows.map Prod.snd).dedup).insertionSort (fun a b => a ≤ b) := by
      rw [(List.perm_insertionSort _ _).mem_iff, List.mem_dedup]
      exact hc
    exact nodup_filter_eq_length_one hnd hcm
  · intro w hw
    unfold cluster_stats_of at hw
    obtain ⟨i, him, rfl⟩ := List.mem_map.mp hw
    show i ∈ rows.map Prod.snd
    rw [← List.mem_dedup]
    exact (List.perm_insertionSort _ _).mem_iff.mp him
  · intro w hw hwc
    unfold cluster_stats_of at hw
    obtain ⟨i, him, rfl⟩ := List.mem_map.mp hw
    have hic : i = c := hwc
    subst hic
    exact ⟨rfl, rfl, rfl, rfl⟩

/-- C7, witness: the theorem applied to three concrete assignment rows and
cluster 0. -/
theorem C7_cluster_summaries_witness :
    ((cluster_stats_of rows3).filter (fun w => w.cluster_id = 0)).length = 1 :=
  (C7_cluster_summaries rows3 0 (by decide)).1

/- ===== Claim C8 ===== -/

theorem except_bind_error {β : Type} (e : String)
    (f : β → Except String ClusterOutput) :
    ((Except.error e : Except String β) >>= f) = Except.error e := rfl

theorem athena_map_skill (t : List CleanRecord) :
    (query_skills_from_athena t).map AthenaRow.skill = (t.map CleanRecord.skill).dedup := by
  unfold query_skills_from_athena
  rw [List.map_map]
  exact List.map_id' _

/-- C8: in every successful run, each distinct input skill appears in exactly
one assignment row (the assignment skills are exactly the distinct input
skills, without duplicates), each cluster_id of the assignments appears in
exactly one summary row, and the num_skills of the summaries sum to the
number of distinct input skills. -/
theorem C8_output_invariants (fp : Nat → Nat → List Point3 → List Nat)
    (sil : List Point3 → List Nat → Rat) (sq : Rat → Rat)
    (records : List CleanRecord) (out : ClusterOutput)
    (hlen : ∀ (k : Nat) (X : List Point3), (fp k 42 X).length = X.length)
    (hok : lambda_pipeline fp sil sq records = Except.ok out) :
    (out.assignments.map (fun r => r.1.skill)).Nodup ∧
    (∀ s, s ∈ out.assignments.map (fun r => r.1.skill) ↔
      s ∈ records.map CleanRecord.skill) ∧
    (out.cluster_stats.map ClusterStat.cluster_id).Nodup ∧
    (∀ c, c ∈ out.cluster_stats.map ClusterStat.cluster_id ↔
      c ∈ out.assignments.map Prod.snd) ∧
    ((out.cluster_stats.map ClusterStat.num_skills).sum =
      ((records.map CleanRecord.skill).dedup).length) := by
  have hok2 : perform_clustering fp sil
      (fit_transform sq ((query_skills_from_athena records).map
        (fun r => ⟨r.employee_count, r.avg_proficiency, r.avg_experience⟩)))
      (query_skills_from_athena records) = Except.ok out := hok
  set odata := query_skills_from_athena records with hodata
  set X := fit_transform sq (odata.map
    (fun r => ⟨r.employee_count, r.avg_proficiency, r.avg_experience⟩)) with hX
  rcases hse : perform_clustering_search fp sil X with e | best
  · rw [perform_clustering, hse] at hok2
    exact Except.noConfusion hok2
  · by_cases hkm : X.length < best.1
    · have e1 : kmeans_fit_predict fp best.1 42 X =
          Except.error "n_samples should be >= n_clusters" := by
        unfold kmeans_fit_predict
        rw [if_pos hkm]
      rw [perform_clustering, hse, except_bind_ok, e1, except_bind_error] at hok2
      exact Except.noConfusion hok2
    · have e1 : kmeans_fit_predict fp best.1 42 X =
          Except.ok (fp best.1 42 X) := by
        unfold kmeans_fit_predict
        rw [if_neg hkm]
      rw [perform_clustering, hse, except_bind_ok, e1, except_bind_ok] at hok2
      have hout : out = { assignments := odata.zip (fp best.1 42 X)
                          cluster_stats := cluster_stats_of (odata.zip (fp best.1 42 X))
                          cluster_labels := fp best.1 42 X
                          silhouette := best.2 } := (Except.ok.inj hok2).symm
      subst hout
      have hlx : X.length = odata.length := by
        rw [hX]
        unfold fit_transform
        rw [List.length_map, List.length_map]
      have hlab : (fp best.1 42 X).length = odata.length :=
        (hlen best.1 X).trans hlx
      have hzip_fst : (odata.zip (fp best.1 42 X)).map Prod.fst = odata :=
        List.map_fst_zip _ _ (le_of_eq hlab.symm)
      have hskills : (odata.zip (fp best.1 42 X)).map (fun r => r.1.skill) =
          (records.map CleanRecord.skill).dedup := by
        show ((odata.zip (fp best.1 42 X)).map (AthenaRow.skill ∘ Prod.fst)) = _
        rw [← List.map_map, hzip_fst, hodata]
        exact athena_map_skill records
      refine ⟨?_, ?_, ?_, ?_, ?_⟩
      · show ((odata.zip (fp best.1 42 X)).map (fun r => r.1.skill)).Nodup
        rw [hskills]
        exact List.nodup_dedup _
      · intro s
        show s ∈ (odata.zip (fp best.1 42 X)).map (fun r => r.1.skill) ↔ _
        rw [hskills, List.mem_dedup]
      · exact cluster_stats_ids_nodup (odata.zip (fp best.1 42 X))
      · intro c
        exact mem_cluster_stats_ids (odata.zip (fp best.1 42 X)) c
      · show ((cluster_stats_of (odata.zip (fp best.1 42 X))).map
            ClusterStat.num_skills).sum = _
        rw [sum_num_skills]
        rw [List.length_zip]
        rw [hlab, Nat.min_self]
        rw [hodata]
        unfold query_skills_from_athena
        rw [List.length_map]

/-- C8, witness: the invariants instantiated on a concrete successful run
over eight records with eight distinct skills. -/
theorem C8_output_invariants_witness :
    (out8.assignments.map (fun r => r.1.skill)).Nodup ∧
    ("A" ∈ out8.assignments.map (fun r => r.1.skill) ↔
      "A" ∈ records8.map CleanRecord.skill) ∧
    ((out8.cluster_stats.map ClusterStat.num_skills).sum =
      ((records8.map CleanRecord.skill).dedup).length) := by
  have h := C8_output_invariants fpMod silConst (fun q => q) records8 out8
    (fun k X => by simp [fpMod]) (by rfl)
  exact ⟨h.1, h.2.1 "A", h.2.2.2.2⟩

end SkillsInventory

